import Mathlib

/-!
Verification of the scene/stage synchronization core of SexLab Scene Builder,
shallowly embedded from src/src/App.jsx.

Modelling conventions:
- JavaScript string ids and opaque payloads are modelled as Nat tokens.
- generatePositionId returns a timestamp/random string in the source; it is
  modelled as drawing from an abstract supply indexed by a call counter, with
  freshness expressed as injectivity of the supply where a claim needs it.
- Array.prototype.filter over (element, index) pairs is modelled through
  List.enum; copy-on-write patches (immer drafts, structuredClone) are plain
  functional record updates.
-/

/-- Position entry of a scene or stage: fresh id plus opaque info payload. -/
structure Position where
  pid : Nat
  info : Nat
  deriving DecidableEq, Repr

/-- Stage: id, its own positions list (index-parallel with the scene level
list), and the extra.fixed_len flag stored on graph nodes. -/
structure Stage where
  id : Nat
  positions : List Position
  fixed_len : Bool
  deriving DecidableEq, Repr

/-- Per-stage graph layout entry as serialized at save time: coordinates and
destination stage ids. -/
structure GraphEntry where
  x : Int
  y : Int
  dest : List Nat
  deriving DecidableEq, Repr

/-- Scene record. The furniture config, tags and private flag are bundled
into one opaque `meta` token: none of the modelled operations reads or
writes them, they are only carried along by spread copies. -/
structure Scene where
  id : Nat
  name : String
  root : Option Nat
  stages : List Stage
  positions : List Position
  graph : List (Nat × GraphEntry)
  meta : Nat
  has_warnings : Bool
  deriving DecidableEq, Repr

/-- Canvas node: id, coordinates, and the node props set by the app
(isStart, fixedLen, the stage payload). -/
structure Node where
  id : Nat
  x : Int
  y : Int
  isStart : Bool
  fixedLen : Bool
  stageProp : Option Stage
  deriving DecidableEq, Repr

/-- Canvas snapshot: rendered nodes plus directed edges (source, target). -/
structure Canvas where
  nodes : List Node
  edges : List (Nat × Nat)
  deriving DecidableEq, Repr

/-- Auto-placement cursor of addStageToGraph (stageToGraphX/stageToGraphY). -/
structure GridState where
  gx : Int
  gy : Int
  deriving DecidableEq, Repr

/-- Application state: known scenes list, active scene, dirty flag (edited),
rebuild guard (inEdit), canvas, placement cursor, and the call counter of
generatePositionId. An active scene is assumed present, as every modelled
handler dereferences it. -/
structure AppState where
  scenes : List Scene
  activeScene : Scene
  edited : Bool
  inEdit : Bool
  canvas : Canvas
  grid : GridState
  counter : Nat
  deriving DecidableEq, Repr

/-- Model of generatePositionId: draw the next id from the supply and advance
the call counter. -/
def generatePositionId (supply : Nat → Nat) (n : Nat) : Nat × Nat :=
  (supply n, n + 1)

/-- Model of xs.filter((_, idx) => idx !== k). -/
def filterIdxNe {α : Type} (xs : List α) (k : Int) : List α :=
  (xs.enum.filter (fun p => (p.1 : Int) ≠ k)).map Prod.snd

/-- Payload of the on_position_remove event. -/
structure PositionRemoveMsg where
  sceneId : Nat
  positionIdx : Int
  deriving DecidableEq, Repr

/-- Payload of the on_position_add event: target scene id, the info object
spread into the scene-level entry, and the position object spread into each
stage-level entry. -/
structure PositionAddMsg where
  sceneId : Nat
  info : Nat
  posPayload : Nat
  deriving DecidableEq, Repr

/-- Payload of the on_position_change event. -/
structure PositionChangeMsg where
  sceneId : Nat
  stageId : Nat
  positionIdx : Nat
  info : Nat
  deriving DecidableEq, Repr

/-- Payload of the on_stage_saved event; the `scene` field carries the id of
the scene the stage belongs to. -/
structure StageSavedMsg where
  scene : Nat
  positions : List Position
  stage : Stage
  deriving DecidableEq, Repr

/-- Translation of remove_position (src/src/App.jsx lines 259 to 269): drop
index positionIdx from every stage list that has it in range, drop it from
scene.positions, and set has_warnings. -/
def remove_position (positionIdx : Int) (scene : Scene) : Scene :=
  { scene with
      stages := scene.stages.map (fun stage =>
        if 0 ≤ positionIdx ∧ positionIdx < (stage.positions.length : Int) then
          { stage with positions := filterIdxNe stage.positions positionIdx }
        else stage),
      positions := filterIdxNe scene.positions positionIdx,
      has_warnings := true }

/-- Translation of the stages.forEach loop of add_position: push a freshly
identified copy of the position payload onto every stage, threading the
generatePositionId call counter left to right. -/
def pushFreshPositions (supply : Nat → Nat) (payload : Nat) :
    List Stage → Nat → List Stage × Nat
  | [], n => ([], n)
  | stage :: rest, n =>
    let g := generatePositionId supply n
    let stage' := { stage with positions := stage.positions ++ [⟨g.1, payload⟩] }
    let r := pushFreshPositions supply payload rest g.2
    (stage' :: r.1, r.2)

/-- Translation of add_position (src/src/App.jsx lines 284 to 292): mint the
scene-level entry first, then push one fresh entry per stage, then append the
scene-level entry and set has_warnings. -/
def add_position (supply : Nat → Nat) (msg : PositionAddMsg) (scene : Scene)
    (n : Nat) : Scene × Nat :=
  let g := generatePositionId supply n
  let newPosition : Position := ⟨g.1, msg.info⟩
  let r := pushFreshPositions supply msg.posPayload scene.stages g.2
  ({ scene with
      stages := r.1,
      positions := scene.positions ++ [newPosition],
      has_warnings := true }, r.2)

/-- Index parallelism invariant of the data model: every stage owns exactly
as many positions as the scene does. -/
def parallelLists (scene : Scene) : Prop :=
  ∀ stage ∈ scene.stages, stage.positions.length = scene.positions.length

instance (scene : Scene) : Decidable (parallelLists scene) := by
  unfold parallelLists; infer_instance

/-- One position-level inbound message, for replaying sequences. -/
inductive PosMsg where
  | add (msg : PositionAddMsg)
  | remove (idx : Int)
  deriving DecidableEq, Repr

/-- Apply one position message to a scene, threading the id counter. -/
def applyPosMsg (supply : Nat → Nat) (sn : Scene × Nat) : PosMsg → Scene × Nat
  | .add msg => add_position supply msg sn.1 sn.2
  | .remove idx => (remove_position idx sn.1, sn.2)

/-- Apply a sequence of position messages left to right. -/
def applyPosMsgs (supply : Nat → Nat) (msgs : List PosMsg) (sn : Scene × Nat) :
    Scene × Nat :=
  msgs.foldl (applyPosMsg supply) sn

-- Helper lemmas about filterIdxNe -------------------------------------------

theorem enumFrom_filter_ne_out {α : Type} (k : Int) :
    ∀ (xs : List α) (n : Nat), (k < (n : Int) ∨ ((n : Int) + xs.length ≤ k)) →
      ((List.enumFrom n xs).filter (fun p => (p.1 : Int) ≠ k)).map Prod.snd = xs := by
  intro xs
  induction xs with
  | nil => intro n _; rfl
  | cons x rest ih =>
    intro n h
    have hne : ((n : Int) ≠ k) := by
      rcases h with h | h
      · exact ne_of_gt h
      · simp only [List.length_cons] at h; push_cast at h; omega
    have hrec := ih (n + 1) (by
      rcases h with h | h
      · left; push_cast; omega
      · right; simp only [List.length_cons] at h; push_cast at h ⊢; omega)
    simp only [List.enumFrom_cons, List.filter_cons, List.map_cons]
    rw [if_pos (by simpa using hne)]
    simpa using hrec

theorem enumFrom_filter_ne_erase {α : Type} (k : Int) :
    ∀ (xs : List α) (n : Nat), ((n : Int) ≤ k) → (k < (n : Int) + xs.length) →
      ((List.enumFrom n xs).filter (fun p => (p.1 : Int) ≠ k)).map Prod.snd
        = xs.eraseIdx (k - n).toNat := by
  intro xs
  induction xs with
  | nil =>
    intro n h1 h2
    simp at h2; omega
  | cons x rest ih =>
    intro n h1 h2
    by_cases hk : (n : Int) = k
    · simp only [List.enumFrom_cons, List.filter_cons]
      rw [if_neg (by simpa using hk)]
      have : (k - (n : Int)).toNat = 0 := by omega
      rw [this, List.eraseIdx_cons_zero]
      exact enumFrom_filter_ne_out k rest (n + 1) (by left; push_cast; omega)
    · have hlt : (n : Int) < k := lt_of_le_of_ne h1 hk
      simp only [List.enumFrom_cons, List.filter_cons]
      rw [if_pos (by simpa using hk)]
      have hrec := ih (n + 1) (by push_cast; omega) (by
        simp only [List.length_cons] at h2; push_cast at h2 ⊢; omega)
      have hidx : (k - (n : Int)).toNat = (k - ((n : Int) + 1)).toNat + 1 := by omega
      rw [hidx]
      simp only [List.map_cons, List.eraseIdx_cons_succ]
      push_cast at hrec
      rw [hrec]

theorem filterIdxNe_out {α : Type} (xs : List α) (k : Int)
    (h : k < 0 ∨ (xs.length : Int) ≤ k) : filterIdxNe xs k = xs := by
  unfold filterIdxNe
  rw [List.enum]
  exact enumFrom_filter_ne_out k xs 0 (by simpa using h)

theorem filterIdxNe_length_in {α : Type} (xs : List α) (k : Int)
    (h0 : 0 ≤ k) (h1 : k < (xs.length : Int)) :
    (filterIdxNe xs k).length = xs.length - 1 := by
  unfold filterIdxNe
  rw [List.enum]
  rw [enumFrom_filter_ne_erase k xs 0 (by simpa using h0) (by simpa using h1)]
  exact List.length_eraseIdx_of_lt (by omega)

-- C1: index parallelism is preserved by position add/remove ------------------

theorem add_position_parallel (supply : Nat → Nat) (msg : PositionAddMsg)
    (scene : Scene) (n : Nat) (h : parallelLists scene) :
    parallelLists (add_position supply msg scene n).1 := by
  intro stage hmem
  simp only [add_position] at hmem ⊢
  simp only [List.length_append, List.length_cons, List.length_nil]
  have key : ∀ (stages : List Stage) (m : Nat) (st : Stage),
      st ∈ (pushFreshPositions supply msg.posPayload stages m).1 →
      ∃ st₀ ∈ stages, st.positions.length = st₀.positions.length + 1 := by
    intro stages
    induction stages with
    | nil => intro m st hst; simp [pushFreshPositions] at hst
    | cons a rest ih =>
      intro m st hst
      simp only [pushFreshPositions, List.mem_cons] at hst
      rcases hst with hst | hst
      · exact ⟨a, List.mem_cons_self a rest, by
          subst hst; simp⟩
      · obtain ⟨st₀, hst₀, hlen⟩ := ih _ st hst
        exact ⟨st₀, List.mem_cons_of_mem a hst₀, hlen⟩
  obtain ⟨st₀, hst₀, hlen⟩ := key scene.stages _ stage hmem
  rw [hlen, h st₀ hst₀]

theorem remove_position_parallel (idx : Int) (scene : Scene)
    (h : parallelLists scene) : parallelLists (remove_position idx scene) := by
  intro stage hmem
  simp only [remove_position, List.mem_map] at hmem ⊢
  obtain ⟨st₀, hst₀, heq⟩ := hmem
  have hlen := h st₀ hst₀
  by_cases hin : 0 ≤ idx ∧ idx < (scene.positions.length : Int)
  · rw [if_pos (by rw [hlen]; exact hin)] at heq
    subst heq
    simp only
    rw [filterIdxNe_length_in st₀.positions idx hin.1 (by rw [hlen]; exact hin.2),
      filterIdxNe_length_in scene.positions idx hin.1 hin.2, hlen]
  · rw [if_neg (by rw [hlen]; exact hin)] at heq
    subst heq
    rw [filterIdxNe_out scene.positions idx (by omega), hlen]

/-- C1: for every scene satisfying the index-parallelism invariant, replaying
any sequence of position-added and position-removed messages preserves it:
after each message every stage owns exactly as many positions as the scene. -/
theorem positions_parallel_preserved (supply : Nat → Nat) (msgs : List PosMsg) :
    ∀ (scene : Scene) (n : Nat), parallelLists scene →
      parallelLists (applyPosMsgs supply msgs (scene, n)).1 := by
  induction msgs with
  | nil => intro scene n h; exact h
  | cons m rest ih =>
    intro scene n h
    simp only [applyPosMsgs, List.foldl_cons]
    cases m with
    | add msg =>
      have h1 := add_position_parallel supply msg scene n h
      simpa [applyPosMsgs, applyPosMsg] using
        ih (add_position supply msg scene n).1 (add_position supply msg scene n).2 h1
    | remove idx =>
      have h1 := remove_position_parallel idx scene h
      simpa [applyPosMsgs, applyPosMsg] using ih (remove_position idx scene) n h1

/-- Witness for C1 at a concrete scene and message sequence. -/
theorem positions_parallel_preserved_witness :
    parallelLists (applyPosMsgs (fun n => n)
      [PosMsg.add ⟨7, 5, 6⟩, PosMsg.remove 0, PosMsg.add ⟨7, 9, 9⟩]
      (⟨7, "demo", none, [⟨1, [⟨100, 0⟩], false⟩, ⟨2, [⟨101, 0⟩], false⟩],
        [⟨50, 0⟩], [], 0, false⟩, 0)).1 :=
  positions_parallel_preserved (fun n => n)
    [PosMsg.add ⟨7, 5, 6⟩, PosMsg.remove 0, PosMsg.add ⟨7, 9, 9⟩]
    ⟨7, "demo", none, [⟨1, [⟨100, 0⟩], false⟩, ⟨2, [⟨101, 0⟩], false⟩],
      [⟨50, 0⟩], [], 0, false⟩ 0 (by decide)

-- Helper: mapping a function that fixes every member is the identity --------

theorem list_map_eq_self {α : Type} (l : List α) (f : α → α)
    (h : ∀ x ∈ l, f x = x) : l.map f = l := by
  conv_rhs => rw [← List.map_id l]
  exact List.map_congr_left h

-- C10: out-of-range position removal -----------------------------------------

/-- C10: a position-removed message whose index lies outside the valid range
of scene.positions deletes nothing from any list (given the index-parallelism
invariant of the data model) yet still sets has_warnings on the scene. -/
theorem remove_position_out_of_range (idx : Int) (scene : Scene)
    (hpar : parallelLists scene)
    (hout : idx < 0 ∨ (scene.positions.length : Int) ≤ idx) :
    remove_position idx scene = { scene with has_warnings := true } := by
  unfold remove_position
  rw [filterIdxNe_out scene.positions idx hout]
  rw [list_map_eq_self _ _ (fun stage hmem => by
    rw [if_neg]
    rw [hpar stage hmem]
    omega)]

/-- Witness for C10: removing index 5 from a scene holding one position. -/
theorem remove_position_out_of_range_witness :
    remove_position 5
      ⟨3, "demo", none, [⟨1, [⟨40, 0⟩], false⟩], [⟨41, 0⟩], [], 0, false⟩
      = { (⟨3, "demo", none, [⟨1, [⟨40, 0⟩], false⟩], [⟨41, 0⟩], [], 0, false⟩ : Scene)
          with has_warnings := true } :=
  remove_position_out_of_range 5
    ⟨3, "demo", none, [⟨1, [⟨40, 0⟩], false⟩], [⟨41, 0⟩], [], 0, false⟩
    (by decide) (by decide)

-- C8: replaying a position-added message is not idempotent -------------------

theorem pushFreshPositions_snd (supply : Nat → Nat) (payload : Nat) :
    ∀ (stages : List Stage) (n : Nat),
      (pushFreshPositions supply payload stages n).2 = n + stages.length := by
  intro stages
  induction stages with
  | nil => intro n; rfl
  | cons a rest ih =>
    intro n
    simp only [pushFreshPositions, generatePositionId, List.length_cons, ih]
    omega

theorem pushFreshPositions_growth (supply : Nat → Nat) (payload : Nat) :
    ∀ (stages : List Stage) (n : Nat),
      List.Forall₂ (fun a b => b.positions.length = a.positions.length + 1)
        stages (pushFreshPositions supply payload stages n).1 := by
  intro stages
  induction stages with
  | nil => intro n; simp [pushFreshPositions]
  | cons a rest ih =>
    intro n
    simp only [pushFreshPositions]
    exact List.Forall₂.cons (by simp) (ih _)

/-- C8: processing the same position-added message twice appends two distinct
positions to scene.positions (one per message instance, with ids never
reused), and every stage list grows by exactly one entry per instance. -/
theorem add_position_replay_not_idempotent (supply : Nat → Nat)
    (hinj : Function.Injective supply) (msg : PositionAddMsg) (scene : Scene)
    (n : Nat) :
    ∃ p1 p2 : Position,
      (add_position supply msg scene n).1.positions = scene.positions ++ [p1]
      ∧ (add_position supply msg (add_position supply msg scene n).1
          (add_position supply msg scene n).2).1.positions
          = scene.positions ++ [p1, p2]
      ∧ p1.pid ≠ p2.pid
      ∧ List.Forall₂ (fun a b => b.positions.length = a.positions.length + 1)
          scene.stages (add_position supply msg scene n).1.stages
      ∧ List.Forall₂ (fun a b => b.positions.length = a.positions.length + 1)
          (add_position supply msg scene n).1.stages
          (add_position supply msg (add_position supply msg scene n).1
            (add_position supply msg scene n).2).1.stages := by
  have h1pos : (add_position supply msg scene n).1.positions
      = scene.positions ++ [⟨supply n, msg.info⟩] := by
    simp [add_position, generatePositionId]
  have h1cnt : (add_position supply msg scene n).2 = (n + 1) + scene.stages.length := by
    simp [add_position, generatePositionId, pushFreshPositions_snd]
  have h1st : (add_position supply msg scene n).1.stages
      = (pushFreshPositions supply msg.posPayload scene.stages (n + 1)).1 := by
    simp [add_position, generatePositionId]
  have h2pos : (add_position supply msg (add_position supply msg scene n).1
      (add_position supply msg scene n).2).1.positions
      = (add_position supply msg scene n).1.positions
        ++ [⟨supply ((n + 1) + scene.stages.length), msg.info⟩] := by
    rw [← h1cnt]; simp [add_position, generatePositionId]
  have h2st : (add_position supply msg (add_position supply msg scene n).1
      (add_position supply msg scene n).2).1.stages
      = (pushFreshPositions supply msg.posPayload
          (add_position supply msg scene n).1.stages
          ((add_position supply msg scene n).2 + 1)).1 := by
    simp [add_position, generatePositionId]
  refine ⟨⟨supply n, msg.info⟩, ⟨supply ((n + 1) + scene.stages.length), msg.info⟩,
    h1pos, ?_, ?_, ?_, ?_⟩
  · rw [h2pos, h1pos, List.append_assoc]; rfl
  · intro heq
    have := hinj heq
    omega
  · rw [h1st]; exact pushFreshPositions_growth supply msg.posPayload scene.stages (n + 1)
  · rw [h2st]
    exact pushFreshPositions_growth supply msg.posPayload _ _

/-- Witness for C8 at a concrete scene, with the identity id supply. -/
theorem add_position_replay_not_idempotent_witness :
    ∃ p1 p2 : Position,
      (add_position (fun n => n) ⟨4, 8, 9⟩
        (⟨4, "demo", none, [⟨1, [], false⟩], [], [], 0, false⟩ : Scene) 0).1.positions
        = (⟨4, "demo", none, [⟨1, [], false⟩], [], [], 0, false⟩ : Scene).positions ++ [p1]
      ∧ (add_position (fun n => n) ⟨4, 8, 9⟩
          (add_position (fun n => n) ⟨4, 8, 9⟩
            (⟨4, "demo", none, [⟨1, [], false⟩], [], [], 0, false⟩ : Scene) 0).1
          (add_position (fun n => n) ⟨4, 8, 9⟩
            (⟨4, "demo", none, [⟨1, [], false⟩], [], [], 0, false⟩ : Scene) 0).2).1.positions
          = (⟨4, "demo", none, [⟨1, [], false⟩], [], [], 0, false⟩ : Scene).positions ++ [p1, p2]
      ∧ p1.pid ≠ p2.pid
      ∧ List.Forall₂ (fun a b => b.positions.length = a.positions.length + 1)
          (⟨4, "demo", none, [⟨1, [], false⟩], [], [], 0, false⟩ : Scene).stages
          (add_position (fun n => n) ⟨4, 8, 9⟩
            (⟨4, "demo", none, [⟨1, [], false⟩], [], [], 0, false⟩ : Scene) 0).1.stages
      ∧ List.Forall₂ (fun a b => b.positions.length = a.positions.length + 1)
          (add_position (fun n => n) ⟨4, 8, 9⟩
            (⟨4, "demo", none, [⟨1, [], false⟩], [], [], 0, false⟩ : Scene) 0).1.stages
          (add_position (fun n => n) ⟨4, 8, 9⟩
            (add_position (fun n => n) ⟨4, 8, 9⟩
              (⟨4, "demo", none, [⟨1, [], false⟩], [], [], 0, false⟩ : Scene) 0).1
            (add_position (fun n => n) ⟨4, 8, 9⟩
              (⟨4, "demo", none, [⟨1, [], false⟩], [], [], 0, false⟩ : Scene) 0).2).1.stages :=
  add_position_replay_not_idempotent (fun n => n) (fun _ _ h => h) ⟨4, 8, 9⟩
    ⟨4, "demo", none, [⟨1, [], false⟩], [], [], 0, false⟩ 0

-- Canvas operations used by the stage-saved listener -------------------------

/-- Grid spacing used by addStageToGraph. -/
def gridSize : Int := 200

/-- Translation of addStageToGraph (src/src/App.jsx lines 422 to 441): when
the canvas already holds nodes, advance the placement cursor by one grid
cell, wrapping to the next row past the container width; then add a node
carrying the stage id at the cursor. -/
def addStageToGraph (containerWidth : Int) (stageId : Nat) (canvas : Canvas)
    (grid : GridState) : Canvas × GridState :=
  let grid' :=
    if canvas.nodes.length > 0 then
      let gx := grid.gx + gridSize
      if gx > containerWidth - gridSize then (⟨40, grid.gy + gridSize⟩ : GridState)
      else ⟨gx, grid.gy⟩
    else grid
  let node : Node := ⟨stageId, grid'.gx, grid'.gy, false, false, none⟩
  ({ canvas with nodes := canvas.nodes ++ [node] }, grid')

/-- Translation of updateNodeProps (src/src/App.jsx lines 443 to 448): set
the stage payload, fixedLen and isStart props on the node carrying the stage
id; isStart holds exactly when the belonging scene roots at this stage. -/
def updateNodeProps (stage : Stage) (belongingScene : Scene)
    (canvas : Canvas) : Canvas :=
  { canvas with nodes := canvas.nodes.map (fun n =>
      if n.id = stage.id then
        { n with stageProp := some stage, fixedLen := stage.fixed_len,
                 isStart := decide (belongingScene.root = some stage.id) }
      else n) }

/-- Model of a node.prop call writing isStart on the node with the given id. -/
def setNodeStart (nodeId : Nat) (b : Bool) (canvas : Canvas) : Canvas :=
  { canvas with nodes := canvas.nodes.map (fun n =>
      if n.id = nodeId then { n with isStart := b } else n) }

-- The four inbound listeners --------------------------------------------------

/-- Active-scene branch of the on_stage_saved listener (src/src/App.jsx lines
215 to 248): reuse the canvas node with the stage id or create one, refresh
its props, patch the stage into a clone of the active scene (appending a new
stage and auto-promoting it to start when it is the first one), overwrite the
positions list with the saved one, and mark the app dirty. -/
def stageSaveActive (containerWidth : Int) (msg : StageSavedMsg)
    (st : AppState) : AppState :=
  let cg :=
    if (st.canvas.nodes.find? (fun n => n.id = msg.stage.id)).isSome then
      (st.canvas, st.grid)
    else addStageToGraph containerWidth msg.stage.id st.canvas st.grid
  let canvas2 := updateNodeProps msg.stage st.activeScene cg.1
  let s0 := st.activeScene
  match s0.stages.findIdx? (fun it => it.id = msg.stage.id) with
  | none =>
    let stages' := s0.stages ++ [msg.stage]
    if stages'.length = 1 then
      let scene' := { s0 with stages := stages', root := some msg.stage.id, positions := msg.positions }
      { st with activeScene := scene', canvas := setNodeStart msg.stage.id true canvas2, grid := cg.2, edited := true }
    else
      let scene' := { s0 with stages := stages', positions := msg.positions }
      { st with activeScene := scene', canvas := canvas2, grid := cg.2, edited := true }
  | some i =>
    let scene' := { s0 with stages := s0.stages.set i msg.stage, positions := msg.positions }
    { st with activeScene := scene', canvas := canvas2, grid := cg.2, edited := true }

/-- Translation of the on_stage_saved listener (src/src/App.jsx lines 210 to
254). The background branch of the source evaluates `sceneId`, a name that is
not bound anywhere in this listener (the payload field is named `scene`), so
it throws a ReferenceError before reading or patching any state. -/
def on_stage_saved (containerWidth : Int) (msg : StageSavedMsg)
    (st : AppState) : Except String AppState :=
  if st.scenes.length = 0 ∨ st.activeScene.id = msg.scene then
    .ok (stageSaveActive containerWidth msg st)
  else
    .error "ReferenceError: sceneId is not defined"

/-- Active-scene branch of the on_position_remove listener. -/
def removeActive (msg : PositionRemoveMsg) (st : AppState) : AppState :=
  { st with activeScene := remove_position msg.positionIdx st.activeScene }

/-- Translation of the on_position_remove listener (src/src/App.jsx lines 255
to 279): apply remove_position to the active scene when the scenes list is
empty or the id matches, else patch the matching background entry, else do
nothing. -/
def on_position_remove (msg : PositionRemoveMsg) (st : AppState) : AppState :=
  if st.scenes.length = 0 ∨ st.activeScene.id = msg.sceneId then
    removeActive msg st
  else
    match st.scenes.findIdx? (fun it => it.id = msg.sceneId) with
    | none => st
    | some idx =>
      match st.scenes[idx]? with
      | none => st
      | some sc =>
        { st with scenes := st.scenes.set idx (remove_position msg.positionIdx sc) }

/-- Active-scene branch of the on_position_add listener. -/
def addActive (supply : Nat → Nat) (msg : PositionAddMsg) (st : AppState) :
    AppState :=
  let r := add_position supply msg st.activeScene st.counter
  { st with activeScene := r.1, counter := r.2 }

/-- Translation of the on_position_add listener (src/src/App.jsx lines 280 to
303). -/
def on_position_add (supply : Nat → Nat) (msg : PositionAddMsg)
    (st : AppState) : AppState :=
  if st.scenes.length = 0 ∨ st.activeScene.id = msg.sceneId then
    addActive supply msg st
  else
    match st.scenes.findIdx? (fun it => it.id = msg.sceneId) with
    | none => st
    | some idx =>
      match st.scenes[idx]? with
      | none => st
      | some sc =>
        let r := add_position supply msg sc st.counter
        { st with scenes := st.scenes.set idx r.1, counter := r.2 }

/-- Active-scene branch of the on_position_change listener: overwrite the
indexed scene-level position with a freshly identified copy of the info. -/
def changeActive (supply : Nat → Nat) (msg : PositionChangeMsg)
    (st : AppState) : AppState :=
  let g := generatePositionId supply st.counter
  { st with
      activeScene := { st.activeScene with
        positions := st.activeScene.positions.set msg.positionIdx ⟨g.1, msg.info⟩ },
      counter := g.2 }

/-- Translation of the on_position_change listener (src/src/App.jsx lines 304
to 316): a sentinel stageId of 0 marks a self-echo from the scene-level
editor and is skipped, as is any message whose scene is not active (while
scenes exist). Index assignment into the positions array is modelled by
List.set, which matches the source for every in-range index. -/
def on_position_change (supply : Nat → Nat) (msg : PositionChangeMsg)
    (st : AppState) : AppState :=
  if msg.stageId = 0 then st
  else if st.scenes.length = 0 ∨ st.activeScene.id = msg.sceneId then
    changeActive supply msg st
  else st

-- C3: the background branch of on_stage_saved throws --------------------------

/-- C3: evidence of the background-scene defect of on_stage_saved. A
stage-saved message naming the known background scene 2 while scene 1 is
active makes the listener throw (the source reads the unbound name
`sceneId`), so the background entry is never deep-cloned or patched. -/
theorem stage_saved_background_throws :
    on_stage_saved 1000 ⟨2, [], ⟨10, [], false⟩⟩
      ⟨[⟨1, "one", none, [], [], [], 0, false⟩, ⟨2, "two", none, [], [], [], 0, false⟩],
        ⟨1, "one", none, [], [], [], 0, false⟩,
        false, false, ⟨[], []⟩, ⟨40, 40⟩, 0⟩
      = .error "ReferenceError: sceneId is not defined" := rfl

-- C6: the first stage ever added is auto-promoted to start --------------------

theorem node_flagged_after (stage : Stage) (sc : Scene) (cv : Canvas)
    (n₀ : Node) (hmem : n₀ ∈ cv.nodes) (hid : n₀.id = stage.id) :
    ∃ n ∈ (setNodeStart stage.id true (updateNodeProps stage sc cv)).nodes,
      n.id = stage.id ∧ n.isStart = true := by
  have h1 : ({ n₀ with stageProp := some stage, fixedLen := stage.fixed_len, isStart := true } : Node)
      ∈ (setNodeStart stage.id true (updateNodeProps stage sc cv)).nodes := by
    simp only [setNodeStart, updateNodeProps, List.map_map]
    refine List.mem_map.mpr ⟨n₀, hmem, ?_⟩
    simp [Function.comp, hid]
  exact ⟨_, h1, hid, rfl⟩

/-- C6: a stage-saved message for a stage new to the target (active) scene,
landing in a scene that had no stages yet, auto-promotes that stage to start:
the patched scene roots at the new stage id and its canvas node is flagged
isStart. -/
theorem stage_saved_first_stage_promoted (containerWidth : Int)
    (msg : StageSavedMsg) (st : AppState)
    (hActive : st.scenes.length = 0 ∨ st.activeScene.id = msg.scene)
    (hFirst : st.activeScene.stages = []) :
    ∃ st', on_stage_saved containerWidth msg st = .ok st'
      ∧ st'.activeScene.root = some msg.stage.id
      ∧ st'.activeScene.stages = [msg.stage]
      ∧ ∃ n ∈ st'.canvas.nodes, n.id = msg.stage.id ∧ n.isStart = true := by
  refine ⟨stageSaveActive containerWidth msg st, ?_, ?_⟩
  · unfold on_stage_saved
    rw [if_pos hActive]
  · simp only [stageSaveActive]
    rw [hFirst]
    simp only [List.findIdx?_nil, List.nil_append, List.length_cons,
      List.length_nil, Nat.zero_add, reduceIte]
    refine ⟨trivial, trivial, ?_⟩
    by_cases hfound : (st.canvas.nodes.find? (fun n => n.id = msg.stage.id)).isSome
    · rw [if_pos hfound]
      obtain ⟨n₀, hn₀⟩ := Option.isSome_iff_exists.mp hfound
      have hmem := List.mem_of_find?_eq_some hn₀
      have hid : n₀.id = msg.stage.id := by
        have := List.find?_some hn₀
        simpa using this
      exact node_flagged_after msg.stage st.activeScene st.canvas n₀ hmem hid
    · rw [if_neg hfound]
      refine node_flagged_after msg.stage st.activeScene
        (addStageToGraph containerWidth msg.stage.id st.canvas st.grid).1
        ⟨msg.stage.id,
          (addStageToGraph containerWidth msg.stage.id st.canvas st.grid).2.gx,
          (addStageToGraph containerWidth msg.stage.id st.canvas st.grid).2.gy,
          false, false, none⟩ ?_ rfl
      simp [addStageToGraph]

/-- Witness for C6: saving stage 10 into an empty active scene. -/
theorem stage_saved_first_stage_promoted_witness :
    ∃ st', on_stage_saved 1000 ⟨1, [⟨70, 0⟩], ⟨10, [⟨70, 0⟩], false⟩⟩
      (⟨[], ⟨1, "one", none, [], [], [], 0, false⟩, false, false,
        ⟨[], []⟩, ⟨40, 40⟩, 0⟩ : AppState) = .ok st'
      ∧ st'.activeScene.root = some (⟨10, [⟨70, 0⟩], false⟩ : Stage).id
      ∧ st'.activeScene.stages = [⟨10, [⟨70, 0⟩], false⟩]
      ∧ ∃ n ∈ st'.canvas.nodes,
          n.id = (⟨10, [⟨70, 0⟩], false⟩ : Stage).id ∧ n.isStart = true :=
  stage_saved_first_stage_promoted 1000 ⟨1, [⟨70, 0⟩], ⟨10, [⟨70, 0⟩], false⟩⟩
    ⟨[], ⟨1, "one", none, [], [], [], 0, false⟩, false, false,
      ⟨[], []⟩, ⟨40, 40⟩, 0⟩ (Or.inl rfl) rfl

-- C9: an empty scenes list short-circuits the scene-id match ------------------

/-- C9: whenever the known scenes list is empty, each of the four inbound
listeners applies the message to the currently active scene regardless of the
scene id the message carries; the id comparison is short-circuited away. -/
theorem handlers_target_active_when_no_scenes (st : AppState)
    (h : st.scenes = []) (containerWidth : Int) (supply : Nat → Nat)
    (m1 : StageSavedMsg) (m2 : PositionRemoveMsg) (m3 : PositionAddMsg)
    (m4 : PositionChangeMsg) :
    on_stage_saved containerWidth m1 st = .ok (stageSaveActive containerWidth m1 st)
    ∧ on_position_remove m2 st = removeActive m2 st
    ∧ on_position_add supply m3 st = addActive supply m3 st
    ∧ on_position_change supply m4 st
        = if m4.stageId = 0 then st else changeActive supply m4 st := by
  have hlen : st.scenes.length = 0 := by rw [h]; rfl
  refine ⟨?_, ?_, ?_, ?_⟩
  · unfold on_stage_saved; rw [if_pos (Or.inl hlen)]
  · unfold on_position_remove; rw [if_pos (Or.inl hlen)]
  · unfold on_position_add; rw [if_pos (Or.inl hlen)]
  · unfold on_position_change
    by_cases h0 : m4.stageId = 0
    · rw [if_pos h0, if_pos h0]
    · rw [if_neg h0, if_neg h0, if_pos (Or.inl hlen)]

/-- Witness for C9: empty scenes list, active scene id 1, every message
naming the unrelated scene id 99. -/
theorem handlers_target_active_when_no_scenes_witness :
    on_stage_saved 800 ⟨99, [], ⟨10, [], false⟩⟩
        (⟨[], ⟨1, "one", none, [], [], [], 0, false⟩, false, false,
          ⟨[], []⟩, ⟨40, 40⟩, 0⟩ : AppState)
      = .ok (stageSaveActive 800 ⟨99, [], ⟨10, [], false⟩⟩
          ⟨[], ⟨1, "one", none, [], [], [], 0, false⟩, false, false,
            ⟨[], []⟩, ⟨40, 40⟩, 0⟩)
    ∧ on_position_remove ⟨99, 0⟩
        ⟨[], ⟨1, "one", none, [], [], [], 0, false⟩, false, false,
          ⟨[], []⟩, ⟨40, 40⟩, 0⟩
      = removeActive ⟨99, 0⟩
          ⟨[], ⟨1, "one", none, [], [], [], 0, false⟩, false, false,
            ⟨[], []⟩, ⟨40, 40⟩, 0⟩
    ∧ on_position_add (fun n => n) ⟨99, 3, 4⟩
        ⟨[], ⟨1, "one", none, [], [], [], 0, false⟩, false, false,
          ⟨[], []⟩, ⟨40, 40⟩, 0⟩
      = addActive (fun n => n) ⟨99, 3, 4⟩
          ⟨[], ⟨1, "one", none, [], [], [], 0, false⟩, false, false,
            ⟨[], []⟩, ⟨40, 40⟩, 0⟩
    ∧ on_position_change (fun n => n) ⟨99, 7, 0, 5⟩
        ⟨[], ⟨1, "one", none, [], [], [], 0, false⟩, false, false,
          ⟨[], []⟩, ⟨40, 40⟩, 0⟩
      = if (⟨99, 7, 0, 5⟩ : PositionChangeMsg).stageId = 0 then
          ⟨[], ⟨1, "one", none, [], [], [], 0, false⟩, false, false,
            ⟨[], []⟩, ⟨40, 40⟩, 0⟩
        else changeActive (fun n => n) ⟨99, 7, 0, 5⟩
          ⟨[], ⟨1, "one", none, [], [], [], 0, false⟩, false, false,
            ⟨[], []⟩, ⟨40, 40⟩, 0⟩ :=
  handlers_target_active_when_no_scenes
    ⟨[], ⟨1, "one", none, [], [], [], 0, false⟩, false, false,
      ⟨[], []⟩, ⟨40, 40⟩, 0⟩ rfl 800 (fun n => n)
    ⟨99, [], ⟨10, [], false⟩⟩ ⟨99, 0⟩ ⟨99, 3, 4⟩ ⟨99, 7, 0, 5⟩

-- C7: marking a stage as start -----------------------------------------------

/-- Translation of the node:doMarkRoot handler (src/src/App.jsx lines 161 to
169): clear the isStart prop on the cell carrying the current root id (when
such a cell exists), set it on the clicked node, store the clicked node id in
root, and mark the app dirty. The clicked node wins when it is itself the
current root, matching the statement order of the source. -/
def doMarkRoot (nodeId : Nat) (st : AppState) : AppState :=
  let canvas' := { st.canvas with nodes := st.canvas.nodes.map (fun n =>
      if n.id = nodeId then { n with isStart := true }
      else if some n.id = st.activeScene.root then { n with isStart := false }
      else n) }
  { st with canvas := canvas', activeScene := { st.activeScene with root := some nodeId }, edited := true }

/-- Data-model invariant: a node is flagged isStart exactly when root names
its id (so at most one flagged node once canvas ids are distinct). -/
def startInv (st : AppState) : Prop :=
  ∀ n ∈ st.canvas.nodes, (n.isStart = true ↔ st.activeScene.root = some n.id)

instance (st : AppState) : Decidable (startInv st) := by
  unfold startInv; infer_instance

theorem filter_id_nodup_length (i : Nat) :
    ∀ (l : List Node), i ∈ l.map Node.id → (l.map Node.id).Nodup →
      (l.filter (fun n => n.id = i)).length = 1 := by
  intro l
  induction l with
  | nil => intro hmem _; simp at hmem
  | cons a rest ih =>
    intro hmem hnodup
    simp only [List.map_cons, List.nodup_cons] at hnodup
    by_cases h : a.id = i
    · have hnil : rest.filter (fun n => n.id = i) = [] := by
        refine List.filter_eq_nil_iff.mpr (fun n hn => ?_)
        simp only [decide_eq_true_eq]
        intro hni
        exact hnodup.1 (by rw [h, ← hni]; exact List.mem_map_of_mem Node.id hn)
      simp [List.filter_cons, h, hnil]
    · have hmem2 : i = a.id ∨ ∃ b ∈ rest, b.id = i := by simpa using hmem
      have hmem' : i ∈ rest.map Node.id := by
        rcases hmem2 with h1 | ⟨b, hb, hbi⟩
        · exact absurd h1.symm h
        · exact hbi ▸ List.mem_map_of_mem Node.id hb
      simp only [List.filter_cons, decide_eq_true_eq, h]
      simpa using ih hmem' hnodup.2

theorem startFlag_after_mark (nodeId : Nat) (root0 : Option Nat) :
    ∀ (l : List Node), (∀ n ∈ l, n.isStart = true ↔ root0 = some n.id) →
      ∀ m ∈ l.map (fun n =>
        if n.id = nodeId then { n with isStart := true }
        else if some n.id = root0 then { n with isStart := false }
        else n), m.isStart = true ↔ some nodeId = some m.id := by
  intro l
  induction l with
  | nil => simp
  | cons a rest ih =>
    intro h m hm
    simp only [List.map_cons, List.mem_cons] at hm
    rcases hm with rfl | hm
    · by_cases h1 : a.id = nodeId
      · rw [if_pos h1]
        simp [h1]
      · rw [if_neg h1]
        by_cases h2 : some a.id = root0
        · rw [if_pos h2]
          constructor
          · intro hh
            exact absurd hh (by simp)
          · intro hh
            exact absurd (Option.some.inj hh).symm h1
        · rw [if_neg h2]
          have hfalse : a.isStart = false := by
            by_cases hb : a.isStart = true
            · exact absurd ((h a (List.mem_cons_self a rest)).mp hb).symm h2
            · simpa using hb
          constructor
          · intro hh
            rw [hfalse] at hh
            exact absurd hh (by simp)
          · intro hh
            exact absurd (Option.some.inj hh).symm h1
    · exact ih (fun n hn => h n (List.mem_cons_of_mem a hn)) m hm

/-- C7: marking the same stage as start twice is idempotent on the whole
application state; after any mark-root operation the start-flag invariant
holds, exactly one canvas node is flagged isStart, and root carries the
marked node id. -/
theorem doMarkRoot_props (nodeId : Nat) (st : AppState) (hInv : startInv st)
    (hMem : nodeId ∈ st.canvas.nodes.map Node.id)
    (hNodup : (st.canvas.nodes.map Node.id).Nodup) :
    doMarkRoot nodeId (doMarkRoot nodeId st) = doMarkRoot nodeId st
    ∧ startInv (doMarkRoot nodeId st)
    ∧ ((doMarkRoot nodeId st).canvas.nodes.filter (fun n => n.isStart)).length = 1
    ∧ (doMarkRoot nodeId st).activeScene.root = some nodeId := by
  refine ⟨?_, ?_, ?_, rfl⟩
  · simp only [doMarkRoot]
    congr 1
    · congr 1
      apply list_map_eq_self
      intro m hm
      obtain ⟨n, _, rfl⟩ := List.mem_map.mp hm
      by_cases h1 : n.id = nodeId
      · simp [h1]
      · by_cases h2 : some n.id = st.activeScene.root
        · simp [h1, h2]
        · simp [h1, h2]
  · intro m hm
    have hm2 : m ∈ st.canvas.nodes.map (fun n =>
        if n.id = nodeId then { n with isStart := true }
        else if some n.id = st.activeScene.root then { n with isStart := false }
        else n) := hm
    have hres := startFlag_after_mark nodeId st.activeScene.root st.canvas.nodes
      (fun n hn => hInv n hn) m hm2
    simpa [doMarkRoot] using hres
  · simp only [doMarkRoot]
    rw [List.filter_map]
    have hcongr : st.canvas.nodes.filter
        ((fun n => n.isStart) ∘ (fun n =>
          if n.id = nodeId then { n with isStart := true }
          else if some n.id = st.activeScene.root then { n with isStart := false }
          else n))
        = st.canvas.nodes.filter (fun n => n.id = nodeId) := by
      apply List.filter_congr
      intro n hn
      by_cases h1 : n.id = nodeId
      · simp [Function.comp, h1]
      · by_cases h2 : some n.id = st.activeScene.root
        · simp [Function.comp, h1, h2]
        · have hfalse : n.isStart = false := by
            by_cases hb : n.isStart = true
            · exact absurd ((hInv n hn).mp hb).symm h2
            · simpa using hb
          simp [Function.comp, h1, h2, hfalse]
    rw [hcongr, List.length_map]
    exact filter_id_nodup_length nodeId st.canvas.nodes hMem hNodup

/-- Witness for C7 on a two-node canvas rooted at node 2, re-marking node 2. -/
theorem doMarkRoot_props_witness :
    doMarkRoot 2 (doMarkRoot 2
      ⟨[], ⟨1, "one", some 2, [], [], [], 0, false⟩, false, false,
        ⟨[⟨2, 0, 0, true, false, none⟩, ⟨3, 0, 0, false, false, none⟩], []⟩, ⟨40, 40⟩, 0⟩)
      = doMarkRoot 2
        ⟨[], ⟨1, "one", some 2, [], [], [], 0, false⟩, false, false,
          ⟨[⟨2, 0, 0, true, false, none⟩, ⟨3, 0, 0, false, false, none⟩], []⟩, ⟨40, 40⟩, 0⟩
    ∧ startInv (doMarkRoot 2
        ⟨[], ⟨1, "one", some 2, [], [], [], 0, false⟩, false, false,
          ⟨[⟨2, 0, 0, true, false, none⟩, ⟨3, 0, 0, false, false, none⟩], []⟩, ⟨40, 40⟩, 0⟩)
    ∧ ((doMarkRoot 2
        ⟨[], ⟨1, "one", some 2, [], [], [], 0, false⟩, false, false,
          ⟨[⟨2, 0, 0, true, false, none⟩, ⟨3, 0, 0, false, false, none⟩], []⟩,
          ⟨40, 40⟩, 0⟩).canvas.nodes.filter (fun n => n.isStart)).length = 1
    ∧ (doMarkRoot 2
        ⟨[], ⟨1, "one", some 2, [], [], [], 0, false⟩, false, false,
          ⟨[⟨2, 0, 0, true, false, none⟩, ⟨3, 0, 0, false, false, none⟩], []⟩,
          ⟨40, 40⟩, 0⟩).activeScene.root = some 2 :=
  doMarkRoot_props 2
    ⟨[], ⟨1, "one", some 2, [], [], [], 0, false⟩, false, false,
      ⟨[⟨2, 0, 0, true, false, none⟩, ⟨3, 0, 0, false, false, none⟩], []⟩, ⟨40, 40⟩, 0⟩
    (by decide) (by decide) (by decide)

-- Scene activation (setActiveScene) ------------------------------------------

/-- Outcome of an interactive confirm dialog. -/
inductive ConfirmChoice where
  | ok
  | cancel
  deriving DecidableEq, Repr

/-- Node-materialization loop of setActiveScene (src/src/App.jsx lines 385 to
389): for every stored graph entry, look up its stage (the source would throw
on a missing one), add a node via the grid auto-placement (the stored
coordinates are passed but ignored by addStageToGraph), and refresh its
props. -/
def buildNodes (containerWidth : Int) (newscene : Scene) :
    List (Nat × GraphEntry) → Canvas → GridState → Except String (Canvas × GridState)
  | [], c, g => .ok (c, g)
  | (key, _) :: rest, c, g =>
    match newscene.stages.find? (fun stage => stage.id = key) with
    | none => .error "TypeError: stage is undefined"
    | some stage =>
      let cg := addStageToGraph containerWidth stage.id c g
      let c2 := updateNodeProps stage newscene cg.1
      buildNodes containerWidth newscene rest c2 cg.2

/-- Edge-reconstruction loop of setActiveScene (src/src/App.jsx lines 390 to
408): for every stored entry with destinations, find the source node, and add
one edge per destination whose target node exists. -/
def buildEdges (entries : List (Nat × GraphEntry)) (c : Canvas) : Canvas :=
  entries.foldl (fun canvas p =>
    if p.2.dest.isEmpty then canvas
    else if (canvas.nodes.find? (fun n => n.id = p.1)).isSome then
      p.2.dest.foldl (fun cv targetid =>
        if (cv.nodes.find? (fun n => n.id = targetid)).isSome then
          { cv with edges := cv.edges ++ [(p.1, targetid)] }
        else cv) canvas
    else canvas) c

/-- Committed part of setActiveScene: set the rebuild guard, clear the
canvas, install the new scene, materialize its nodes and edges, then drop the
guard and clear the dirty flag. -/
def performSwitch (containerWidth : Int) (newscene : Scene) (st : AppState) :
    Except String AppState :=
  match buildNodes containerWidth newscene newscene.graph ⟨[], []⟩ st.grid with
  | .error e => .error e
  | .ok cg =>
    let c2 := buildEdges newscene.graph cg.1
    .ok { st with inEdit := false, canvas := c2, grid := cg.2, activeScene := newscene, edited := false }

/-- Translation of setActiveScene (src/src/App.jsx lines 367 to 412): when
the state is dirty and no rebuild is in progress, the switch is gated behind
a discard confirmation; confirming re-enters with the guard set, declining
runs the empty onCancel handler and returns. -/
def setActiveScene (containerWidth : Int) (choice : ConfirmChoice)
    (newscene : Scene) (st : AppState) : Except String AppState :=
  if st.inEdit = false ∧ st.edited = true then
    match choice with
    | .cancel => .ok st
    | .ok => performSwitch containerWidth newscene { st with inEdit := true }
  else performSwitch containerWidth newscene st

-- C5: declining the discard confirmation changes nothing ----------------------

/-- C5: requesting a scene switch while the dirty flag is set and declining
the discard confirmation returns the state unchanged: canvas, active scene,
scenes list and dirty flag are all exactly as before. -/
theorem setActiveScene_decline_unchanged (containerWidth : Int)
    (newscene : Scene) (st : AppState) (hGuard : st.inEdit = false)
    (hDirty : st.edited = true) :
    setActiveScene containerWidth ConfirmChoice.cancel newscene st = .ok st := by
  unfold setActiveScene
  rw [if_pos ⟨hGuard, hDirty⟩]

/-- Witness for C5 at a concrete dirty state. -/
theorem setActiveScene_decline_unchanged_witness :
    setActiveScene 1000 ConfirmChoice.cancel
      ⟨2, "next", none, [], [], [], 0, false⟩
      ⟨[⟨1, "one", none, [], [], [], 0, false⟩],
        ⟨1, "one", none, [], [], [], 0, false⟩, true, false,
        ⟨[⟨5, 0, 0, false, false, none⟩], []⟩, ⟨40, 40⟩, 0⟩
      = .ok ⟨[⟨1, "one", none, [], [], [], 0, false⟩],
          ⟨1, "one", none, [], [], [], 0, false⟩, true, false,
          ⟨[⟨5, 0, 0, false, false, none⟩], []⟩, ⟨40, 40⟩, 0⟩ :=
  setActiveScene_decline_unchanged 1000
    ⟨2, "next", none, [], [], [], 0, false⟩
    ⟨[⟨1, "one", none, [], [], [], 0, false⟩],
      ⟨1, "one", none, [], [], [], 0, false⟩, true, false,
      ⟨[⟨5, 0, 0, false, false, none⟩], []⟩, ⟨40, 40⟩, 0⟩ rfl rfl

-- Saving: reachability check and persistence ---------------------------------

/-- Outgoing edge targets of a node id on the canvas. -/
def outgoingTargets (edges : List (Nat × Nat)) (v : Nat) : List Nat :=
  (edges.filter (fun e => e.1 = v)).map Prod.snd

/-- Fuel-bounded depth-first traversal over outgoing edges, visiting each
node at most once. The fuel used by getSuccessors dominates the worst case:
every iteration pops one stack entry, entries are pushed only on a first
visit (at most one visit per distinct edge target plus the seed, each pushing
at most edges.length entries), and the initial stack holds at most
edges.length entries. -/
def dfsSucc (edges : List (Nat × Nat)) : Nat → List Nat → List Nat → List Nat
  | 0, visited, _ => visited
  | _ + 1, visited, [] => visited
  | fuel + 1, visited, v :: stack =>
    if visited.contains v then dfsSucc edges fuel visited stack
    else dfsSucc edges fuel (visited ++ [v]) (outgoingTargets edges v ++ stack)

/-- Model of graph.getSuccessors(startNode): every node reachable from the
start along outgoing edges, the start node itself excluded. -/
def getSuccessors (edges : List (Nat × Nat)) (startId : Nat) : List Nat :=
  (dfsSucc edges ((edges.length + 1) * (edges.length + 1) + 1) [startId]
    (outgoingTargets edges startId)).filter (fun v => v ≠ startId)

/-- Serialization of the canvas into the graph field of the saved scene
(src/src/App.jsx lines 496 to 510): per node, its position and the targets of
its outgoing edges. -/
def serializeGraph (canvas : Canvas) : List (Nat × GraphEntry) :=
  canvas.nodes.map (fun node =>
    (node.id, ⟨node.x, node.y, (canvas.edges.filter (fun e => e.1 = node.id)).map Prod.snd⟩))

/-- Store update run on the save acknowledgement (src/src/App.jsx lines 515
to 523): replace the scene entry with the matching id, or append it. -/
def upsertScene (scenes : List Scene) (scene : Scene) : List Scene :=
  match scenes.findIdx? (fun it => it.id = scene.id) with
  | none => scenes ++ [scene]
  | some w => scenes.set w scene

/-- Result of a saveScene call: the notifications raised, the scene handed to
the persistence collaborator (none when the save was skipped), and the
application state after the acknowledged save. -/
structure SaveResult where
  notified : List String
  persisted : Option Scene
  state : AppState
  deriving DecidableEq, Repr

/-- Translation of saveScene (src/src/App.jsx lines 450 to 527): an empty
name raises a blocking error; a missing start node or a failed reachability
count raises a warning recorded in has_warnings; the save is skipped when
blocked or when the state is not dirty, else the serialized scene is
persisted and, on acknowledgement, installed in the store with the dirty flag
cleared. The asynchronous acknowledgement of the persistence call is modelled
as running synchronously, matching the single point at which the store is
updated. -/
def saveScene (st : AppState) : SaveResult :=
  let nameCheck :=
    if st.activeScene.name = "" then (false, ["Missing Name"]) else (true, [])
  let startNode := st.canvas.nodes.find? (fun node => st.activeScene.root = some node.id)
  let warnCheck :=
    match startNode with
    | none => (true, ["Missing Start Animation"])
    | some node =>
      if (getSuccessors st.canvas.edges node.id).length + 1 < st.canvas.nodes.length
      then (true, ["Unreachable Stages"])
      else (false, [])
  if nameCheck.1 = false ∨ st.edited = false then
    { notified := nameCheck.2 ++ warnCheck.2
      persisted := none
      state := st }
  else
    let scene := { st.activeScene with graph := serializeGraph st.canvas, has_warnings := warnCheck.1 }
    { notified := nameCheck.2 ++ warnCheck.2
      persisted := some scene
      state := { st with activeScene := scene, scenes := upsertScene st.scenes scene, edited := false } }

-- C4: saving with an empty name ----------------------------------------------

/-- C4: calling saveScene while the active scene has an empty name performs
no persistence call, raises the missing-name error, and leaves the entire
application state (scene store and dirty flag included) unchanged. -/
theorem saveScene_empty_name_aborts (st : AppState)
    (hname : st.activeScene.name = "") :
    (saveScene st).persisted = none
    ∧ (saveScene st).state = st
    ∧ "Missing Name" ∈ (saveScene st).notified := by
  unfold saveScene
  rw [if_pos hname]
  simp

/-- Witness for C4: a dirty state whose active scene has an empty name. -/
theorem saveScene_empty_name_aborts_witness :
    (saveScene ⟨[], ⟨1, "", none, [], [], [], 0, false⟩, true, false,
      ⟨[], []⟩, ⟨40, 40⟩, 0⟩).persisted = none
    ∧ (saveScene ⟨[], ⟨1, "", none, [], [], [], 0, false⟩, true, false,
        ⟨[], []⟩, ⟨40, 40⟩, 0⟩).state
      = ⟨[], ⟨1, "", none, [], [], [], 0, false⟩, true, false,
        ⟨[], []⟩, ⟨40, 40⟩, 0⟩
    ∧ "Missing Name" ∈ (saveScene ⟨[], ⟨1, "", none, [], [], [], 0, false⟩,
        true, false, ⟨[], []⟩, ⟨40, 40⟩, 0⟩).notified :=
  saveScene_empty_name_aborts
    ⟨[], ⟨1, "", none, [], [], [], 0, false⟩, true, false, ⟨[], []⟩, ⟨40, 40⟩, 0⟩ rfl

-- C2: the reachability warning at save time ----------------------------------

theorem outgoingTargets_subset (edges : List (Nat × Nat)) (v : Nat) :
    ∀ x ∈ outgoingTargets edges v, x ∈ edges.map Prod.snd := by
  intro x hx
  unfold outgoingTargets at hx
  obtain ⟨e, he, rfl⟩ := List.mem_map.mp hx
  exact List.mem_map_of_mem Prod.snd (List.mem_of_mem_filter he)

theorem dfsSucc_nodup (edges : List (Nat × Nat)) :
    ∀ (fuel : Nat) (visited stack : List Nat), visited.Nodup →
      (dfsSucc edges fuel visited stack).Nodup := by
  intro fuel
  induction fuel with
  | zero => intro visited stack h; exact h
  | succ fuel ih =>
    intro visited stack h
    cases stack with
    | nil => exact h
    | cons v rest =>
      simp only [dfsSucc]
      by_cases hv : visited.contains v = true
      · rw [if_pos hv]
        exact ih _ _ h
      · rw [if_neg hv]
        refine ih _ _ (List.nodup_append.mpr ⟨h, List.nodup_singleton v, ?_⟩)
        intro a ha hav
        have : a = v := by simpa using hav
        subst this
        exact hv (List.elem_eq_true_of_mem ha)

theorem dfsSucc_subset (edges : List (Nat × Nat)) :
    ∀ (fuel : Nat) (visited stack : List Nat),
      ∀ x ∈ dfsSucc edges fuel visited stack,
        x ∈ visited ∨ x ∈ stack ∨ x ∈ edges.map Prod.snd := by
  intro fuel
  induction fuel with
  | zero => intro visited stack x hx; exact Or.inl hx
  | succ fuel ih =>
    intro visited stack x hx
    cases stack with
    | nil => exact Or.inl hx
    | cons v rest =>
      simp only [dfsSucc] at hx
      by_cases hv : visited.contains v = true
      · rw [if_pos hv] at hx
        rcases ih _ _ x hx with h | h | h
        · exact Or.inl h
        · exact Or.inr (Or.inl (List.mem_cons_of_mem v h))
        · exact Or.inr (Or.inr h)
      · rw [if_neg hv] at hx
        rcases ih _ _ x hx with h | h | h
        · rcases List.mem_append.mp h with h | h
          · exact Or.inl h
          · have : x = v := by simpa using h
            exact Or.inr (Or.inl (this ▸ List.mem_cons_self v rest))
        · rcases List.mem_append.mp h with h | h
          · exact Or.inr (Or.inr (outgoingTargets_subset edges v x h))
          · exact Or.inr (Or.inl (List.mem_cons_of_mem v h))
        · exact Or.inr (Or.inr h)

theorem nodup_subset_length {l1 l2 : List Nat} (h1 : l1.Nodup)
    (h2 : ∀ x ∈ l1, x ∈ l2) : l1.length ≤ l2.length := by
  calc l1.length = l1.toFinset.card := (List.toFinset_card_of_nodup h1).symm
    _ ≤ l2.toFinset.card := Finset.card_le_card (fun x hx =>
        List.mem_toFinset.mpr (h2 x (List.mem_toFinset.mp hx)))
    _ ≤ l2.length := l2.toFinset_card_le

theorem getSuccessors_length_bound (edges : List (Nat × Nat))
    (nodes : List Node) (startId : Nat)
    (hTargets : ∀ e ∈ edges, e.2 ∈ nodes.map Node.id)
    (hStart : startId ∈ nodes.map Node.id) :
    (getSuccessors edges startId).length + 1 ≤ nodes.length := by
  set res := dfsSucc edges ((edges.length + 1) * (edges.length + 1) + 1)
    [startId] (outgoingTargets edges startId) with hres
  have hnodupRes : res.Nodup := dfsSucc_nodup edges _ _ _ (List.nodup_singleton startId)
  have hsubRes : ∀ x ∈ res, x = startId ∨ x ∈ edges.map Prod.snd := by
    intro x hx
    rcases dfsSucc_subset edges _ _ _ x hx with h | h | h
    · exact Or.inl (by simpa using h)
    · exact Or.inr (outgoingTargets_subset edges startId x h)
    · exact Or.inr h
  have hsucc : getSuccessors edges startId = res.filter (fun v => v ≠ startId) := rfl
  have hlen : (startId :: res.filter (fun v => v ≠ startId)).length
      ≤ (nodes.map Node.id).length := by
    apply nodup_subset_length
    · refine List.nodup_cons.mpr ⟨?_, hnodupRes.filter _⟩
      intro hmem
      have := List.of_mem_filter hmem
      simp at this
    · intro x hx
      rcases List.mem_cons.mp hx with rfl | hx
      · exact hStart
      · have hx2 := List.mem_of_mem_filter hx
        have hne : x ≠ startId := by
          have := List.of_mem_filter hx
          simpa using this
        rcases hsubRes x hx2 with h | h
        · exact absurd h hne
        · obtain ⟨e, he, rfl⟩ := List.mem_map.mp h
          exact hTargets e he
  rw [hsucc]
  simpa using hlen

/-- C2: with a designated start stage on the canvas, a dirty state, and a
nonempty name, saving persists a scene whose has_warnings flag is set exactly
when the reachable-set size plus one differs from the node count (on a
well-formed canvas the traversal never overshoots, so the strict comparison
of the source agrees with a mismatch test). -/
theorem saveScene_reachability_warning (st : AppState) (r : Nat)
    (hname : ¬ st.activeScene.name = "")
    (hedited : st.edited = true)
    (hroot : st.activeScene.root = some r)
    (hrmem : r ∈ st.canvas.nodes.map Node.id)
    (hTargets : ∀ e ∈ st.canvas.edges, e.2 ∈ st.canvas.nodes.map Node.id) :
    ∃ sc, (saveScene st).persisted = some sc
      ∧ (sc.has_warnings = true ↔
          (getSuccessors st.canvas.edges r).length + 1 ≠ st.canvas.nodes.length) := by
  obtain ⟨n0, hn0mem, hn0id⟩ := List.mem_map.mp hrmem
  have hfind : ∃ m, st.canvas.nodes.find?
      (fun node => st.activeScene.root = some node.id) = some m := by
    rw [← Option.isSome_iff_exists]
    rw [List.find?_isSome]
    exact ⟨n0, hn0mem, by simp [hroot, hn0id]⟩
  obtain ⟨m, hm⟩ := hfind
  have hmid : m.id = r := by
    have := List.find?_some hm
    simp only [decide_eq_true_eq] at this
    rw [hroot] at this
    exact (Option.some.inj this).symm
  have hbound := getSuccessors_length_bound st.canvas.edges st.canvas.nodes r
    hTargets hrmem
  unfold saveScene
  rw [hm]
  simp only [if_neg hname, hedited]
  rw [hmid]
  by_cases hlt : (getSuccessors st.canvas.edges r).length + 1 < st.canvas.nodes.length
  · rw [if_pos hlt]
    simp only [reduceIte]
    refine ⟨_, rfl, ?_⟩
    simp only [true_iff]
    omega
  · rw [if_neg hlt]
    simp only [reduceIte]
    refine ⟨_, rfl, ?_⟩
    simp only [Bool.false_eq_true, false_iff, ne_eq, not_not]
    omega

/-- Witness for C2: stages A=1, B=2, C=3 with the single edge 1 to 2 and
start 1; the save persists with has_warnings set (stage 3 is unreachable),
matching the mismatch 1 + 1 against 3 nodes. -/
theorem saveScene_reachability_warning_witness :
    (∃ sc, (saveScene ⟨[], ⟨7, "demo", some 1, [], [], [], 0, false⟩, true, false,
        ⟨[⟨1, 0, 0, true, false, none⟩, ⟨2, 0, 0, false, false, none⟩,
          ⟨3, 0, 0, false, false, none⟩], [(1, 2)]⟩, ⟨40, 40⟩, 0⟩).persisted = some sc
      ∧ (sc.has_warnings = true ↔
          (getSuccessors [(1, 2)] 1).length + 1 ≠ 3))
    ∧ ((saveScene ⟨[], ⟨7, "demo", some 1, [], [], [], 0, false⟩, true, false,
        ⟨[⟨1, 0, 0, true, false, none⟩, ⟨2, 0, 0, false, false, none⟩,
          ⟨3, 0, 0, false, false, none⟩], [(1, 2)]⟩, ⟨40, 40⟩,
          0⟩).persisted.map Scene.has_warnings = some true) :=
  ⟨saveScene_reachability_warning
      ⟨[], ⟨7, "demo", some 1, [], [], [], 0, false⟩, true, false,
        ⟨[⟨1, 0, 0, true, false, none⟩, ⟨2, 0, 0, false, false, none⟩,
          ⟨3, 0, 0, false, false, none⟩], [(1, 2)]⟩, ⟨40, 40⟩, 0⟩ 1
      (by decide) rfl rfl (by decide) (by decide),
    by decide⟩
